import Mathlib

/-!
Verification of the core routing and resilience engine of the
Load-Balancer-GO repository, as a shallow embedding in Lean 4.

The Go source is translated as follows: machine integers (`uint32`,
`uint64`) become `Nat` with explicit reduction modulo `2^32` / `2^64`
at every operation that can overflow; `time.Time` becomes a `Nat`
instant (the zero value of `time.Time` is modelled by `0`, and
`t.Before(u)` by `t < u`); `float64` quantities of the rate limiter
and of the adaptive score become exact rationals `ℚ`; Go maps become
association lists; methods that mutate a struct become functions
returning the updated struct.  Logging and the `onStateChange`
callback are side effects with no influence on the data and are
dropped.
-/

namespace LB

/-- Go `uint32` modulus. -/
def U32 : Nat := 2 ^ 32

/-- Go `uint64` modulus. -/
def U64 : Nat := 2 ^ 64

/-! ## Circuit breaker (`loadbalancer`, file `circuitbreaker` in the repo) -/

/-- Go `CircuitBreakerState`: the three states of the circuit breaker. -/
inductive CBState where
  | closed
  | opened
  | halfOpen
deriving DecidableEq, Repr

/-- Go `Counts` holds the statistics of the circuit breaker (all fields
are `uint32` in Go, modelled as `Nat` kept below `U32`). -/
structure Counts where
  requests : Nat
  totalSuccesses : Nat
  totalFailures : Nat
  consecutiveSuccesses : Nat
  consecutiveFailures : Nat
deriving DecidableEq, Repr

/-- The all-zero `Counts{}` value. -/
def countsZero : Counts := ⟨0, 0, 0, 0, 0⟩

/-- Go `Counts.Successes`: `c.Requests - c.ConsecutiveFailures` with
`uint32` wraparound semantics. -/
def Counts.successes (c : Counts) : Nat :=
  (c.requests % U32 + U32 - c.consecutiveFailures % U32) % U32

/-- Go `Counts.Failures`: returns `c.ConsecutiveFailures`. -/
def Counts.failures (c : Counts) : Nat :=
  c.consecutiveFailures

/-- The counter updates performed at the start of `onSuccess`:
`TotalSuccesses++`, `ConsecutiveSuccesses++`, `ConsecutiveFailures = 0`. -/
def Counts.recordSuccess (c : Counts) : Counts :=
  { c with
    totalSuccesses := (c.totalSuccesses + 1) % U32
    consecutiveSuccesses := (c.consecutiveSuccesses + 1) % U32
    consecutiveFailures := 0 }

/-- The counter updates performed at the start of `onFailure`:
`TotalFailures++`, `ConsecutiveFailures++`, `ConsecutiveSuccesses = 0`. -/
def Counts.recordFailure (c : Counts) : Counts :=
  { c with
    totalFailures := (c.totalFailures + 1) % U32
    consecutiveFailures := (c.consecutiveFailures + 1) % U32
    consecutiveSuccesses := 0 }

/-- Go `CircuitBreaker`.  `interval` and `timeout` are durations,
`expiry` is an instant (`0` models the zero `time.Time`),
`generation` is a `uint64`.  The `onStateChange` callback is a pure
side effect and is not modelled. -/
structure CircuitBreaker where
  name : String
  maxRequests : Nat
  interval : Nat
  timeout : Nat
  readyToTrip : Counts → Bool
  state : CBState
  generation : Nat
  counts : Counts
  expiry : Nat

/-- Go `defaultReadyToTrip`: `counts.ConsecutiveFailures > 5`. -/
def defaultReadyToTrip (counts : Counts) : Bool :=
  decide (5 < counts.consecutiveFailures)

/-- Go `NewCircuitBreaker` before options are applied: `maxRequests = 1`,
`interval = timeout = 60` (seconds), `readyToTrip = defaultReadyToTrip`,
state `Closed`. -/
def newCircuitBreaker (name : String) : CircuitBreaker :=
  { name := name
    maxRequests := 1
    interval := 60
    timeout := 60
    readyToTrip := defaultReadyToTrip
    state := .closed
    generation := 0
    counts := countsZero
    expiry := 0 }

/-- Go `toNewGeneration`: advance the generation (`uint64`), clear the
counts, and set the next expiry from the current state. -/
def toNewGeneration (cb : CircuitBreaker) (now : Nat) : CircuitBreaker :=
  let cb := { cb with generation := (cb.generation + 1) % U64, counts := countsZero }
  match cb.state with
  | .closed => if cb.interval = 0 then { cb with expiry := 0 } else { cb with expiry := now + cb.interval }
  | .opened => { cb with expiry := now + cb.timeout }
  | .halfOpen => { cb with expiry := 0 }

/-- Go `setState`: no-op when the state is unchanged, otherwise switch
state and start a new generation (the observer callback is dropped). -/
def setState (cb : CircuitBreaker) (state : CBState) (now : Nat) : CircuitBreaker :=
  if cb.state = state then cb
  else toNewGeneration { cb with state := state } now

/-- Go `currentState`: returns the breaker advanced on timer expiry —
a Closed breaker whose interval elapsed rolls to a new generation, an
Open breaker whose timeout elapsed moves to HalfOpen.  The Go method
returns `(cb.state, cb.generation)` of this advanced breaker. -/
def currentState (cb : CircuitBreaker) (now : Nat) : CircuitBreaker :=
  match cb.state with
  | .closed => if cb.expiry ≠ 0 ∧ cb.expiry < now then toNewGeneration cb now else cb
  | .opened => if cb.expiry < now then setState cb .halfOpen now else cb
  | .halfOpen => cb

/-- Go `ErrTooManyRequests` is the only error the admission path returns. -/
inductive CBErr where
  | tooManyRequests
deriving DecidableEq, Repr

/-- The admission decision of `beforeRequest`, taken on the breaker
returned by `currentState`: reject with `ErrTooManyRequests` when
Open, or when HalfOpen with `counts.Requests >= maxRequests`;
otherwise increment `counts.Requests` (`uint32`) and return the
captured generation. -/
def admitRequest (cb1 : CircuitBreaker) : CircuitBreaker × Nat × Option CBErr :=
  match cb1.state with
  | .opened => (cb1, cb1.generation, some .tooManyRequests)
  | .halfOpen =>
      if cb1.maxRequests ≤ cb1.counts.requests then
        (cb1, cb1.generation, some .tooManyRequests)
      else
        ({ cb1 with counts := { cb1.counts with requests := (cb1.counts.requests + 1) % U32 } },
          cb1.generation, none)
  | .closed =>
      ({ cb1 with counts := { cb1.counts with requests := (cb1.counts.requests + 1) % U32 } },
        cb1.generation, none)

/-- Go `beforeRequest`: compute the current state (advancing on timer
expiry), then decide admission on the advanced breaker. -/
def beforeRequest (cb : CircuitBreaker) (now : Nat) : CircuitBreaker × Nat × Option CBErr :=
  admitRequest (currentState cb now)

/-- Go `onSuccess`: update the counters; in HalfOpen, close the breaker
when `counts.Successes() >= maxRequests`. -/
def onSuccess (cb : CircuitBreaker) (state : CBState) (now : Nat) : CircuitBreaker :=
  let cb := { cb with counts := cb.counts.recordSuccess }
  match state with
  | .closed => cb
  | .halfOpen =>
      if cb.maxRequests ≤ cb.counts.successes then setState cb .closed now else cb
  | .opened => cb

/-- Go `onFailure`: update the counters; from Closed trip to Open when
`readyToTrip(counts)`; from HalfOpen any failure opens the breaker. -/
def onFailure (cb : CircuitBreaker) (state : CBState) (now : Nat) : CircuitBreaker :=
  let cb := { cb with counts := cb.counts.recordFailure }
  match state with
  | .closed => if cb.readyToTrip cb.counts then setState cb .opened now else cb
  | .halfOpen => setState cb .opened now
  | .opened => cb

/-- Go `afterRequest`: recompute the current state; a commit whose
captured generation differs from the current one is discarded,
otherwise the success/failure outcome is applied. -/
def afterRequest (cb : CircuitBreaker) (before : Nat) (success : Bool) (now : Nat) : CircuitBreaker :=
  let cb1 := currentState cb now
  if cb1.generation ≠ before then cb1
  else if success then onSuccess cb1 cb1.state now else onFailure cb1 cb1.state now

/-- Go `State`: the externally visible state; the Go method computes
`currentState(time.Now())` under a read lock (the write it performs
cannot be published through an RLock and is modelled as a pure read). -/
def cbReadState (cb : CircuitBreaker) (now : Nat) : CBState :=
  (currentState cb now).state

/-! ## Session store adapter (`loadbalancer`, Redis session file)

JSON documents are modelled as `JValue` trees rather than rendered
strings (`encoding/json` is library code outside the repository).
`time.Time` fields serialize through an injective RFC3339 rendering,
modelled by the dedicated leaf `JValue.jtime`.  The mock Redis client
returns the map zero value `""` for a missing key; an absent document
is modelled by `none`. -/

/-- A JSON value as produced by `json.Marshal` on the structs of the
repository. -/
inductive JValue where
  | jstr : String → JValue
  | jtime : Nat → JValue
  | jobj : List (String × JValue) → JValue

/-- Go `SessionData`: the data stored for a sticky session. -/
structure SessionData where
  backendURL : String
  region : String
  createdAt : Nat
  lastAccess : Nat
deriving DecidableEq, Repr

/-- Go `json.Marshal` of a `SessionData`: an object with the four tagged
fields `backend_url`, `region`, `created_at`, `last_access`. -/
def marshalSessionData (s : SessionData) : JValue :=
  .jobj [("backend_url", .jstr s.backendURL), ("region", .jstr s.region),
         ("created_at", .jtime s.createdAt), ("last_access", .jtime s.lastAccess)]

/-- Field lookup in a decoded JSON object. -/
def jsonField (fields : List (String × JValue)) (key : String) : Option JValue :=
  (fields.find? (fun p => p.1 == key)).map (fun p => p.2)

/-- Go `json.Unmarshal` into a `SessionData`: each tagged field is read
from the object; a missing or differently-typed field leaves the Go
zero value in place. -/
def unmarshalSessionData (j : JValue) : SessionData :=
  match j with
  | .jobj fields =>
      { backendURL := match jsonField fields "backend_url" with
          | some (.jstr u) => u
          | _ => ""
        region := match jsonField fields "region" with
          | some (.jstr r) => r
          | _ => ""
        createdAt := match jsonField fields "created_at" with
          | some (.jtime t) => t
          | _ => 0
        lastAccess := match jsonField fields "last_access" with
          | some (.jtime t) => t
          | _ => 0 }
  | _ => { backendURL := "", region := "", createdAt := 0, lastAccess := 0 }

/-- The stored key-value data of `MockRedisClient` (keys map to JSON
documents). -/
def RedisData := List (String × JValue)

/-- Go `MockRedisClient.Get`: returns the stored document together with
a nil error (the mock never fails); a missing key yields the map zero
value `""`, modelled as `none`. -/
def mockRedisGet (data : RedisData) (key : String) : Option JValue × Option String :=
  ((List.find? (fun p => p.1 == key) data).map (fun p => p.2), none)

/-- Go `MockRedisClient.Set`: stores the value under the key. -/
def mockRedisSet (data : RedisData) (key : String) (value : JValue) : RedisData :=
  (key, value) :: (List.filter (fun p => ¬ p.1 == key) data)

/-- Go `sessionKey`: `"<prefix>:session:<sessionID>"`. -/
def sessionKey (keyPref sessionID : String) : String :=
  keyPref ++ ":session:" ++ sessionID

/-- Go `SetSession`: build a fresh `SessionData` stamped with the current
time, marshal it, and store it under the session key. -/
def setSession (data : RedisData) (keyPref sessionID backendURL region : String) (now : Nat) : RedisData :=
  let session : SessionData :=
    { backendURL := backendURL, region := region, createdAt := now, lastAccess := now }
  mockRedisSet data (sessionKey keyPref sessionID) (marshalSessionData session)

/-- Go `GetSession` over the mock client: a client error is wrapped and
returned; a missing document is reported as `ok none` (absence, not
an error); a present document is unmarshalled, its `LastAccess`
refreshed to the current time and written back. -/
def getSession (data : RedisData) (keyPref sessionID : String) (now : Nat) :
    Except String (Option SessionData) × RedisData :=
  let key := sessionKey keyPref sessionID
  match mockRedisGet data key with
  | (_, some e) => (.error ("failed to get session from Redis: " ++ e), data)
  | (none, none) => (.ok none, data)
  | (some doc, none) =>
      let session := unmarshalSessionData doc
      let session := { session with lastAccess := now }
      (.ok (some session), mockRedisSet data key (marshalSessionData session))

/-! ## Rate limiter (`loadbalancer/ratelimiter.go`)

`float64` token arithmetic is modelled exactly over `ℚ`; instants are
rationals and `now.Sub(last).Seconds()` is the difference. -/

/-- Go `tokenBucket`. -/
structure TokenBucket where
  tokens : ℚ
  last : ℚ
  warmup : Int
deriving DecidableEq, Repr

/-- Go `RateLimiter` (the bucket map is an association list). -/
structure RateLimiter where
  capacity : ℚ
  refillRate : ℚ
  buckets : List (String × TokenBucket)
  warmup : Int
deriving DecidableEq, Repr

/-- Go `NewRateLimiter`: capacity and refill rate from the integer
configuration, empty bucket map, `warmup = capacity * 3`. -/
def newRateLimiter (capacity refillPerSecond : Int) : RateLimiter :=
  { capacity := (capacity : ℚ)
    refillRate := (refillPerSecond : ℚ)
    buckets := []
    warmup := capacity * 3 }

/-- Store a bucket under the key (Go map assignment). -/
def putBucket (buckets : List (String × TokenBucket)) (key : String) (b : TokenBucket) :
    List (String × TokenBucket) :=
  (key, b) :: (List.filter (fun p => ¬ p.1 == key) buckets)

/-- Go `Allow`: look up (or create) the bucket for the key; while warmup
remains, decrement it and admit; otherwise refill
(`tokens += elapsed * rate`, capped at capacity, only when
`elapsed > 0`), then admit and deduct one token iff `tokens >= 1`. -/
def rlAllow (rl : RateLimiter) (key : String) (now : ℚ) : Bool × RateLimiter :=
  let bucket : TokenBucket :=
    match (rl.buckets.find? (fun p => p.1 == key)).map (fun p => p.2) with
    | some b => b
    | none => { tokens := rl.capacity, last := now, warmup := rl.warmup }
  if 0 < bucket.warmup then
    let b2 := { bucket with warmup := bucket.warmup - 1, last := now }
    (true, { rl with buckets := putBucket rl.buckets key b2 })
  else
    let elapsed := now - bucket.last
    let bucket :=
      if 0 < elapsed then
        let t := bucket.tokens + elapsed * rl.refillRate
        { bucket with tokens := if rl.capacity < t then rl.capacity else t, last := now }
      else bucket
    let allowed := (1 : ℚ) ≤ bucket.tokens
    let bucket := if allowed then { bucket with tokens := bucket.tokens - 1 } else bucket
    (allowed, { rl with buckets := putBucket rl.buckets key bucket })

/-! ## Backend records and the server pool (`serverpool.go`, `main.go`/`part_002`) -/

/-- Go `Backend`: identity, weight (`int`), region, live flag, EWMA
signals (`float64`, modelled over `ℚ`), active-connection counter and
the owned circuit breaker (`nil` allowed). -/
structure Backend where
  url : String
  alive : Bool
  weight : Int
  region : String
  latencyEWMA : ℚ
  successEWMA : ℚ
  active : Int
  cb : Option CircuitBreaker

/-- Go `GetCircuitBreakerState`: `StateClosed` when no breaker is
attached, otherwise the breaker's computed current state. -/
def backendCBState (b : Backend) (now : Nat) : CBState :=
  match b.cb with
  | none => .closed
  | some c => cbReadState c now

/-- Go `IsCircuitBreakerOpen`. -/
def isCircuitBreakerOpen (b : Backend) (now : Nat) : Bool :=
  backendCBState b now = .opened

/-- Go `math.MaxFloat64 = (2 - 2^-52) * 2^1023`, exactly. -/
def maxFloat64Q : ℚ := (2 : ℚ) ^ 1024 - (2 : ℚ) ^ 971

/-- Go `Backend.Score` (rational model of the `float64` arithmetic). -/
def score (b : Backend) (now : Nat) : ℚ :=
  if backendCBState b now = .opened then maxFloat64Q
  else
    let latency := if b.latencyEWMA = 0 then (1 : ℚ) / 10 else b.latencyEWMA
    let success := if b.successEWMA < (1 : ℚ) / 10 then (1 : ℚ) / 10 else b.successEWMA
    let base := latency / (max ((b.weight : ℚ)) 1)
    let penalty := 1 / success
    let load := 1 + (b.active : ℚ)
    let circuitMultiplier : ℚ :=
      match backendCBState b now with
      | .halfOpen => 2
      | .opened => 100
      | .closed => 1
    base * penalty * load * circuitMultiplier

/-- A request as seen by the selection path: the sticky-session
cookie value (if the cookie is present), the region-bearing headers
and query parameter, `X-Forwarded-For`, and the host part of the
remote address (`net.SplitHostPort` is abstracted into the field). -/
structure Request where
  cookieSession : Option String
  headerClientRegion : String
  headerGeoRegion : String
  queryRegion : String
  xff : String
  remoteHost : String

/-- Go `strings.ToLower` (character-wise, executable). -/
def strLower (s : String) : String := String.mk (s.data.map Char.toLower)

/-- Go `strings.TrimSpace` (drop whitespace at both ends, executable). -/
def strTrim (s : String) : String :=
  String.mk (((s.data.dropWhile Char.isWhitespace).reverse.dropWhile Char.isWhitespace).reverse)

/-- The first segment of `strings.Split(s, sep)` for a one-character
separator (only the first entry is ever used by the source). -/
def strFirstSeg (s : String) (sep : Char) : String :=
  String.mk (s.data.takeWhile (fun c => ¬ c == sep))

/-- Go `strings.HasPrefix` (executable). -/
def strStarts (s pre : String) : Bool := pre.data.isPrefixOf s.data

/-- Go `clientIPFromRequest`: first `X-Forwarded-For` entry, trimmed,
else the host part of the remote address. -/
def clientIPFromRequest (r : Request) : String :=
  if r.xff ≠ "" then strTrim (strFirstSeg r.xff ',')
  else r.remoteHost

/-- Go `getClientRegion`: `X-Client-Region`, then `X-Geo-Region`, then
the `region` query parameter (each lower-cased and trimmed), else a
reserved-range heuristic on the client IP. -/
def getClientRegion (r : Request) : String :=
  let cr := strLower (strTrim r.headerClientRegion)
  if cr ≠ "" then cr else
  let gr := strLower (strTrim r.headerGeoRegion)
  if gr ≠ "" then gr else
  let qr := strLower (strTrim r.queryRegion)
  if qr ≠ "" then qr else
  let ip := clientIPFromRequest r
  if ip = "" then "default"
  else if strStarts ip "10." || strStarts ip "192.168." then "us-east"
  else if strStarts ip "172." then "us-west"
  else "default"

/-- Go `ServerPool`.  The traffic policy engine is kept abstract as its
`EvaluateRequest` decision function (`none` when policies are not
enabled); the Redis session manager is the mock store plus the key
prefix; `current` is the `uint64` selection cursor. -/
structure ServerPool where
  backends : List Backend
  weighted : List Backend
  current : Nat
  stickySessions : List (String × Backend)
  regions : List (String × List Backend)
  useRedis : Bool
  redisData : RedisData
  keyPref : String
  policyEval : Option (Request → Except String (Option Backend))

/-- Region-map lookup (Go map read; missing key gives the zero
value, the empty slice). -/
def lookupRegions (regions : List (String × List Backend)) (r : String) : List Backend :=
  ((regions.find? (fun p => p.1 == r)).map (fun p => p.2)).getD []

/-- Region-map store (Go map assignment). -/
def putRegions (regions : List (String × List Backend)) (r : String) (l : List Backend) :
    List (String × List Backend) :=
  (r, l) :: (List.filter (fun p => ¬ p.1 == r) regions)

/-- Sticky-map store (Go map assignment). -/
def putSticky (sticky : List (String × Backend)) (sessionID : String) (b : Backend) :
    List (String × Backend) :=
  (sessionID, b) :: (List.filter (fun p => ¬ p.1 == sessionID) sticky)

/-- Go `AddBackend`: append to the pool slice, append `Weight` replicas
to the weighted index, and append to the region slice when the region
is non-empty.  No identity check of any kind is performed. -/
def addBackend (s : ServerPool) (b : Backend) : ServerPool :=
  let s := { s with
    backends := s.backends ++ [b]
    weighted := s.weighted ++ List.replicate b.weight.toNat b }
  if b.region ≠ "" then
    { s with regions := putRegions s.regions b.region (lookupRegions s.regions b.region ++ [b]) }
  else s

/-- The scan loop of `GetNextPeerWeighted`: for `i` running while
`remaining` iterations are left, test `weighted[(start+i) mod len]`
for liveness and return the first alive backend. -/
def scanWeighted (ws : List Backend) (start : Nat) : Nat → Nat → Option Backend
  | _, 0 => none
  | i, remaining + 1 =>
      match ws[(start + i) % ws.length]? with
      | some backend => if backend.alive then some backend else scanWeighted ws start (i + 1) remaining
      | none => none

/-- Go `GetNextPeerWeighted`: nil on an empty weighted index; otherwise
advance the shared cursor and scan at most `len` entries from
`cursor mod len` for an alive backend.  Only `IsAlive` is tested. -/
def getNextPeerWeighted (s : ServerPool) : Option Backend × ServerPool :=
  if s.weighted.length = 0 then (none, s)
  else
    let length := s.weighted.length
    let start := (s.current % U64) % length
    (scanWeighted s.weighted start 0 length, { s with current := (s.current + 1) % U64 })

/-- Go `getHealthyByRegion`: alive backends of the requested region, or
— when the region is empty or holds no alive backend — all alive
backends. -/
def getHealthyByRegion (s : ServerPool) (region : String) : List Backend :=
  let list := if region ≠ "" then (lookupRegions s.regions region).filter (fun b => b.alive) else []
  if region ≠ "" ∧ list.isEmpty = false then list
  else s.backends.filter (fun b => b.alive)

/-- The best-score fold of `SelectBackend`: strictly improve on a
running best starting from `math.MaxFloat64`. -/
def pickBestScore (cands : List Backend) (now : Nat) : Option Backend :=
  (cands.foldl
    (fun acc backend =>
      if score backend now < acc.2 then (some backend, score backend now) else acc)
    ((none : Option Backend), maxFloat64Q)).1

/-- Go `SelectBackend`: weighted selection for the empty or `default`
region; otherwise the healthy regional candidate with the lowest
score (weighted selection when no candidate exists). -/
def selectBackend (s : ServerPool) (region : String) (now : Nat) : Option Backend × ServerPool :=
  if region = "" ∨ region = "default" then getNextPeerWeighted s
  else
    let candidates := getHealthyByRegion s region
    if candidates.length = 0 then getNextPeerWeighted s
    else (pickBestScore candidates now, s)

/-- Go `SelectBackendWithPolicy`: consult the policy engine when
enabled; on error, nil decision, or failed type assertion fall back
to weighted selection.  The returned flag records whether
`EvaluateRequest` was consulted. -/
def selectBackendWithPolicy (s : ServerPool) (r : Request) :
    Option Backend × ServerPool × Bool :=
  match s.policyEval with
  | none =>
      let (p, s') := getNextPeerWeighted s
      (p, s', false)
  | some ev =>
      match ev r with
      | .error _ =>
          let (p, s') := getNextPeerWeighted s
          (p, s', true)
      | .ok none =>
          let (p, s') := getNextPeerWeighted s
          (p, s', true)
      | .ok (some b) => (some b, s, true)

/-- The assignment tail of `GetBackendForStickySession`: choose via
`SelectBackend`, store the mapping locally and in Redis when enabled. -/
def stickyAssign (s : ServerPool) (sessionID region : String) (now : Nat) :
    Option Backend × ServerPool :=
  let (nb, s1) := selectBackend s region now
  match nb with
  | some backend =>
      let s2 := { s1 with stickySessions := putSticky s1.stickySessions sessionID backend }
      let s3 :=
        if s2.useRedis then
          { s2 with redisData := setSession s2.redisData s2.keyPref sessionID backend.url region now }
        else s2
      (some backend, s3)
  | none => (none, s1)

/-- Go `GetBackendForStickySession`: Redis lookup first (an alive pool
backend with the stored URL wins); then the local sticky map, honored
when the stored backend is alive; otherwise a fresh assignment via
`SelectBackend`, written to the local map and (best effort) Redis. -/
def getBackendForStickySession (s : ServerPool) (sessionID region : String) (now : Nat) :
    Option Backend × ServerPool :=
  let redisStep : Option Backend × ServerPool :=
    if s.useRedis then
      let (res, data') := getSession s.redisData s.keyPref sessionID now
      match res with
      | .ok (some sessionData) =>
          match s.backends.find? (fun b => b.url == sessionData.backendURL && b.alive) with
          | some b => (some b, { s with redisData := data' })
          | none => (none, { s with redisData := data' })
      | .ok none => (none, { s with redisData := data' })
      | .error _ => (none, { s with redisData := data' })
    else (none, s)
  match redisStep with
  | (some b, s1) => (some b, s1)
  | (none, s1) =>
      match s1.stickySessions.find? (fun p => p.1 == sessionID) with
      | some p =>
          if p.2.alive then
            let s2 :=
              if s1.useRedis then
                { s1 with redisData := setSession s1.redisData s1.keyPref sessionID p.2.url region now }
              else s1
            (some p.2, s2)
          else
            stickyAssign s1 sessionID region now
      | none => stickyAssign s1 sessionID region now

/-! ## Dispatcher selection (`lbHandler`, `part_002`) -/

/-- The session id minted when the request carries no session cookie:
`"session_<nanos>"`. -/
def mintSessionId (nanos : Nat) : String := "session_" ++ toString nanos

/-- The session id used by `lbHandler`: the cookie value when the
cookie is present, else a freshly minted id. -/
def lbSessionId (r : Request) (nanos : Nat) : String :=
  match r.cookieSession with
  | some v => v
  | none => mintSessionId nanos

/-- The branch structure of `lbHandler` backend selection: sticky
resolution when the session id is non-empty, otherwise policy engine
then (on nil) adaptive selection.  The `Bool` records whether the
policy engine was consulted. -/
def lbStep1 (s : ServerPool) (r : Request) (nanos now : Nat) :
    Option Backend × ServerPool × Bool :=
  let sessionID := lbSessionId r nanos
  let region := getClientRegion r
  if sessionID ≠ "" then
    let (p, s1) := getBackendForStickySession s sessionID region now
    (p, s1, false)
  else
    let (p, s1, c) := selectBackendWithPolicy s r
    match p with
    | none =>
        let (p2, s2) := selectBackend s1 region now
        (p2, s2, c)
    | some b => (some b, s1, c)

/-- The final weighted fallback of `lbHandler`
(`if peer == nil { peer = serverPool.GetNextPeerWeighted() }`). -/
def lbSelect (s : ServerPool) (r : Request) (nanos now : Nat) :
    Option Backend × ServerPool × Bool :=
  match lbStep1 s r nanos now with
  | (none, s1, c) =>
      let (p2, s2) := getNextPeerWeighted s1
      (p2, s2, c)
  | (some b, s1, c) => (some b, s1, c)

/-- Go `lbHandler` answers 503 Service Unavailable exactly when the
selection path yields no backend (the early-return branch); a
selected backend proceeds to the proxy stage. -/
def lbReplies503 (s : ServerPool) (r : Request) (nanos now : Nat) : Bool :=
  ((lbSelect s r nanos now).1).isNone

/-! ## Concrete states used to instantiate and to refute the claims -/

/-- An Open breaker whose timeout (expiry 100) has not elapsed at
instant 0. -/
def cbOpenEx : CircuitBreaker :=
  { newCircuitBreaker "backend-x" with state := .opened, expiry := 100 }

/-- A fresh Closed breaker. -/
def cbClosedEx : CircuitBreaker := newCircuitBreaker "backend-x"

/-- A Closed breaker that has seen four consecutive failures. -/
def cbFourFailures : CircuitBreaker :=
  { newCircuitBreaker "backend-x" with
    counts := { countsZero with requests := 4, totalFailures := 4, consecutiveFailures := 4 } }

/-- A Closed breaker that has seen five consecutive failures. -/
def cbFiveFailures : CircuitBreaker :=
  { newCircuitBreaker "backend-x" with
    counts := { countsZero with requests := 5, totalFailures := 5, consecutiveFailures := 5 } }

/-- A HalfOpen breaker with `maxRequests = 2` and two admitted
requests, one of which has already succeeded. -/
def cbHalfOpenEx : CircuitBreaker :=
  { newCircuitBreaker "backend-x" with
    state := .halfOpen
    maxRequests := 2
    counts := { countsZero with requests := 2, totalSuccesses := 1, consecutiveSuccesses := 1 } }

/-- A HalfOpen breaker with `maxRequests = 3` and one admitted,
succeeded request. -/
def cbHalfOpenLowEx : CircuitBreaker :=
  { newCircuitBreaker "backend-x" with
    state := .halfOpen
    maxRequests := 3
    counts := { countsZero with requests := 1, totalSuccesses := 1, consecutiveSuccesses := 1 } }

/-- An alive backend whose circuit breaker is Open. -/
def backendOpenAlive : Backend :=
  { url := "http://localhost:8081", alive := true, weight := 1, region := "",
    latencyEWMA := 0, successEWMA := 0, active := 0, cb := some cbOpenEx }

/-- The empty pool (`ServerPool{}` with an initialized sticky map). -/
def emptyPool : ServerPool :=
  { backends := [], weighted := [], current := 0, stickySessions := [], regions := [],
    useRedis := false, redisData := [], keyPref := "loadbalancer", policyEval := none }

/-- A pool holding only the alive, Open-breaker backend. -/
def poolOpenOnly : ServerPool := addBackend emptyPool backendOpenAlive

/-- A breaker-free alive backend of weight 1 (in the weighted index). -/
def backendW : Backend :=
  { url := "http://localhost:8081", alive := true, weight := 1, region := "",
    latencyEWMA := 0, successEWMA := 0, active := 0, cb := none }

/-- A breaker-free alive backend of weight 0 (absent from the
weighted index), the pick of the policy engine below. -/
def backendP : Backend :=
  { url := "http://localhost:8083", alive := true, weight := 0, region := "",
    latencyEWMA := 0, successEWMA := 0, active := 0, cb := none }

/-- A pool with an enabled policy engine that always picks
`backendP`, no sticky state, and `backendW` as the only weighted
entry. -/
def poolPolicy : ServerPool :=
  { backends := [backendW, backendP], weighted := [backendW], current := 0,
    stickySessions := [], regions := [], useRedis := false, redisData := [],
    keyPref := "loadbalancer", policyEval := some (fun _ => .ok (some backendP)) }

/-- A request with no cookie, no region headers and no client IP. -/
def reqPlain : Request :=
  { cookieSession := none, headerClientRegion := "", headerGeoRegion := "",
    queryRegion := "", xff := "", remoteHost := "" }

/-- A pool with a local sticky binding of session `sess1` to the
alive backend `backendW`. -/
def poolSticky : ServerPool :=
  { emptyPool with
    backends := [backendW]
    weighted := [backendW]
    stickySessions := [("sess1", backendW)] }

/-- A request carrying the session cookie `sess1`. -/
def reqSess1 : Request := { reqPlain with cookieSession := some "sess1" }

/-- A request carrying a session cookie with empty value (the only
way `lbHandler` sees an empty session id). -/
def reqEmptyCookie : Request := { reqPlain with cookieSession := some "" }

/-- An alive backend of weight 2 used to probe `AddBackend`
idempotence. -/
def backendDup : Backend :=
  { url := "http://localhost:8082", alive := true, weight := 2, region := "us-west",
    latencyEWMA := 0, successEWMA := 0, active := 0, cb := none }

/-- A one-bucket rate-limiter state past warmup with 1 token. -/
def rlEx : RateLimiter :=
  { capacity := 10, refillRate := 5, warmup := 30,
    buckets := [("1.2.3.4", { tokens := 1, last := 0, warmup := 0 })] }

/-- A one-bucket rate-limiter state still inside warmup. -/
def rlWarm : RateLimiter :=
  { capacity := 10, refillRate := 5, warmup := 30,
    buckets := [("k", { tokens := 10, last := 0, warmup := 30 })] }

/-- A concrete session value. -/
def sessionEx : SessionData :=
  { backendURL := "http://localhost:8081", region := "us-east", createdAt := 7, lastAccess := 9 }

/-! ## Theorems -/

/-- Go `toNewGeneration` never changes the state field. -/
theorem toNewGeneration_state (cb : CircuitBreaker) (now : Nat) :
    (toNewGeneration cb now).state = cb.state := by
  unfold toNewGeneration
  cases h : cb.state
  · simp only [h]; split <;> rfl
  · simp only [h]
  · simp only [h]

/-- Go `setState` always lands in the requested state. -/
theorem setState_state (cb : CircuitBreaker) (st : CBState) (now : Nat) :
    (setState cb st now).state = st := by
  unfold setState
  split
  · assumption
  · rw [toNewGeneration_state]

/-- Go `toNewGeneration` clears the counts. -/
theorem toNewGeneration_counts (cb : CircuitBreaker) (now : Nat) :
    (toNewGeneration cb now).counts = countsZero := by
  unfold toNewGeneration
  cases h : cb.state
  · simp only [h]; split <;> rfl
  · simp only [h]
  · simp only [h]

/-- Go `toNewGeneration` keeps `maxRequests`. -/
theorem toNewGeneration_maxRequests (cb : CircuitBreaker) (now : Nat) :
    (toNewGeneration cb now).maxRequests = cb.maxRequests := by
  unfold toNewGeneration
  cases h : cb.state
  · simp only [h]; split <;> rfl
  · simp only [h]
  · simp only [h]

/-- An actual state switch clears the counts. -/
theorem setState_counts_of_ne (cb : CircuitBreaker) (st : CBState) (now : Nat)
    (h : ¬ cb.state = st) : (setState cb st now).counts = countsZero := by
  unfold setState
  rw [if_neg h]
  exact toNewGeneration_counts _ _

/-- Go `setState` keeps `maxRequests`. -/
theorem setState_maxRequests (cb : CircuitBreaker) (st : CBState) (now : Nat) :
    (setState cb st now).maxRequests = cb.maxRequests := by
  unfold setState
  split
  · rfl
  · exact toNewGeneration_maxRequests _ _

/-- The full behaviour of the admission decision on an (already
advanced) breaker. -/
theorem admitRequest_spec (c : CircuitBreaker) :
    (c.state = .opened → admitRequest c = (c, c.generation, some .tooManyRequests)) ∧
    (c.state = .halfOpen → c.maxRequests ≤ c.counts.requests →
      admitRequest c = (c, c.generation, some .tooManyRequests)) ∧
    ((admitRequest c).2.2 = none →
      (admitRequest c).1 =
        { c with counts := { c.counts with requests := (c.counts.requests + 1) % U32 } } ∧
      (admitRequest c).2.1 = c.generation) ∧
    ((admitRequest c).2.2 ≠ none → (admitRequest c).1 = c) := by
  cases h : c.state
  case closed =>
    refine ⟨?_, ?_, ?_, ?_⟩
    · intro hx; simp [h] at hx
    · intro hx; simp [h] at hx
    · intro _; simp only [admitRequest, h]; constructor <;> trivial
    · intro hne; simp only [admitRequest, h] at hne; exact absurd rfl hne
  case opened =>
    refine ⟨?_, ?_, ?_, ?_⟩
    · intro _; simp only [admitRequest, h]
    · intro hx; simp [h] at hx
    · intro hnone; simp only [admitRequest, h] at hnone; simp at hnone
    · intro _; simp only [admitRequest, h]
  case halfOpen =>
    refine ⟨?_, ?_, ?_, ?_⟩
    · intro hx; simp [h] at hx
    · intro _ hle; simp only [admitRequest, h]; rw [if_pos hle]
    · intro hnone
      simp only [admitRequest, h] at hnone ⊢
      by_cases hc : c.maxRequests ≤ c.counts.requests
      · rw [if_pos hc] at hnone; simp at hnone
      · rw [if_neg hc] at hnone ⊢; constructor <;> trivial
    · intro hne
      simp only [admitRequest, h] at hne ⊢
      by_cases hc : c.maxRequests ≤ c.counts.requests
      · rw [if_pos hc]
      · rw [if_neg hc] at hne; simp at hne

/-- A rejection happens only computed-Open or computed-HalfOpen at
the in-flight limit. -/
theorem admitRequest_rejects_iff (c : CircuitBreaker) :
    (admitRequest c).2.2 ≠ none ↔
      (c.state = .opened ∨ (c.state = .halfOpen ∧ c.maxRequests ≤ c.counts.requests)) := by
  cases h : c.state
  case closed => simp only [admitRequest, h]; simp [h]
  case opened => simp only [admitRequest, h]; simp [h]
  case halfOpen =>
    simp only [admitRequest, h]
    by_cases hc : c.maxRequests ≤ c.counts.requests
    · rw [if_pos hc]; simp [h, hc]
    · rw [if_neg hc]; simp [h, hc]

/-- Claim C2: in the HalfOpen state a successful probe moves the
breaker to Closed exactly when the accumulated successful-request
count of the current generation (`Counts.Successes`, computed after
the success is recorded) is at least `maxRequests`; below that count
the breaker stays HalfOpen. -/
theorem cb_halfOpen_success_closes_iff (cb : CircuitBreaker) (now : Nat)
    (h : cb.state = .halfOpen) :
    ((onSuccess cb .halfOpen now).state = .closed ↔
      cb.maxRequests ≤ cb.counts.recordSuccess.successes) ∧
    (cb.counts.recordSuccess.successes < cb.maxRequests →
      (onSuccess cb .halfOpen now).state = .halfOpen) := by
  have hred : onSuccess cb .halfOpen now =
      (if cb.maxRequests ≤ cb.counts.recordSuccess.successes
       then setState { cb with counts := cb.counts.recordSuccess } .closed now
       else { cb with counts := cb.counts.recordSuccess }) := rfl
  rw [hred]
  by_cases hc : cb.maxRequests ≤ cb.counts.recordSuccess.successes
  · rw [if_pos hc, setState_state]
    exact ⟨⟨fun _ => hc, fun _ => rfl⟩, fun hlt => absurd hc (not_le.mpr hlt)⟩
  · rw [if_neg hc]
    have hs : ({ cb with counts := cb.counts.recordSuccess } : CircuitBreaker).state = .halfOpen := h
    constructor
    · rw [hs]
      exact ⟨fun hco => absurd hco (by simp), fun hle => absurd hle hc⟩
    · intro _; exact hs

/-- Witness for C2: on the concrete HalfOpen breaker with
`maxRequests = 2` and two recorded successes the probe closes the
breaker, and on the one-success breaker with `maxRequests = 3` it
stays HalfOpen. -/
theorem cb_halfOpen_success_closes_iff_witness :
    (onSuccess cbHalfOpenEx .halfOpen 0).state = .closed ∧
    (onSuccess cbHalfOpenLowEx .halfOpen 0).state = .halfOpen :=
  ⟨(cb_halfOpen_success_closes_iff cbHalfOpenEx 0 rfl).1.mpr (by decide),
   (cb_halfOpen_success_closes_iff cbHalfOpenLowEx 0 rfl).2 (by decide)⟩

/-- Claim C3: admission through the breaker — writing `cbAdv` for the
breaker after the timer-driven advance that computing the current
state performs: a computed Open state rejects with
`ErrTooManyRequests`, a computed HalfOpen state with
`requests ≥ maxRequests` rejects likewise, an admitted call
increments the `Requests` counter and captures the current
generation, and a rejected call leaves state and counters exactly at
`cbAdv`; moreover with `maxRequests ≥ 1` (every breaker this
repository builds) a rejected call leaves the breaker literally
unchanged — rejection never coincides with a timer-driven advance. -/
theorem cb_beforeRequest_spec (cb : CircuitBreaker) (now : Nat) :
    ((currentState cb now).state = .opened →
      beforeRequest cb now =
        (currentState cb now, (currentState cb now).generation, some .tooManyRequests)) ∧
    ((currentState cb now).state = .halfOpen →
      (currentState cb now).maxRequests ≤ (currentState cb now).counts.requests →
      beforeRequest cb now =
        (currentState cb now, (currentState cb now).generation, some .tooManyRequests)) ∧
    ((beforeRequest cb now).2.2 = none →
      (beforeRequest cb now).1 =
        { currentState cb now with counts := { (currentState cb now).counts with
            requests := ((currentState cb now).counts.requests + 1) % U32 } } ∧
      (beforeRequest cb now).2.1 = (currentState cb now).generation) ∧
    ((beforeRequest cb now).2.2 ≠ none → (beforeRequest cb now).1 = currentState cb now) ∧
    (1 ≤ cb.maxRequests → (beforeRequest cb now).2.2 ≠ none →
      currentState cb now = cb ∧ (beforeRequest cb now).1 = cb) := by
  obtain ⟨k1, k2, k3, k4⟩ := admitRequest_spec (currentState cb now)
  refine ⟨k1, k2, k3, k4, ?_⟩
  intro hmax hrej
  have hr := (admitRequest_rejects_iff (currentState cb now)).mp hrej
  have hcs : currentState cb now = cb := by
    cases hst : cb.state
    case closed =>
      exfalso
      have hkeep : (currentState cb now).state = .closed := by
        simp only [currentState, hst]
        split
        · rw [toNewGeneration_state]; exact hst
        · exact hst
      rcases hr with h1 | ⟨h1, _⟩
      · rw [hkeep] at h1; cases h1
      · rw [hkeep] at h1; cases h1
    case opened =>
      have hor : currentState cb now = setState cb .halfOpen now ∨ currentState cb now = cb := by
        simp only [currentState, hst]
        split
        · exact Or.inl rfl
        · exact Or.inr rfl
      rcases hor with heq | heq
      · exfalso
        have hstate2 : (currentState cb now).state = .halfOpen := by rw [heq, setState_state]
        have hne : ¬ cb.state = CBState.halfOpen := by rw [hst]; intro hx; cases hx
        have hcounts2 : (currentState cb now).counts = countsZero := by
          rw [heq]; exact setState_counts_of_ne cb .halfOpen now hne
        have hmax2 : (currentState cb now).maxRequests = cb.maxRequests := by
          rw [heq]; exact setState_maxRequests cb .halfOpen now
        rcases hr with h1 | ⟨_, h2⟩
        · rw [hstate2] at h1; cases h1
        · rw [hcounts2, hmax2] at h2
          simp only [countsZero] at h2
          omega
      · exact heq
    case halfOpen =>
      simp only [currentState, hst]
  refine ⟨hcs, ?_⟩
  have h1 := k4 hrej
  rw [hcs] at h1
  have hbr : beforeRequest cb now = admitRequest (currentState cb now) := rfl
  rw [hbr, hcs]
  exact h1

/-- Witness for C3: the concrete Open breaker rejects at instant 0
with `ErrTooManyRequests`, unchanged. -/
theorem cb_beforeRequest_spec_witness :
    beforeRequest cbOpenEx 0 = (cbOpenEx, cbOpenEx.generation, some .tooManyRequests) :=
  (cb_beforeRequest_spec cbOpenEx 0).1 (by decide)

/-- Claim C4: a commit whose captured generation differs from the
current generation (computed with the timer-driven advance) is
discarded: the breaker is left exactly as the state computation left
it, so no success/failure outcome mutates state or counters. -/
theorem cb_afterRequest_stale_discarded (cb : CircuitBreaker) (before : Nat)
    (success : Bool) (now : Nat)
    (h : (currentState cb now).generation ≠ before) :
    afterRequest cb before success now = currentState cb now := by
  have hred : afterRequest cb before success now =
      (if (currentState cb now).generation ≠ before then currentState cb now
       else if success then onSuccess (currentState cb now) (currentState cb now).state now
       else onFailure (currentState cb now) (currentState cb now).state now) := rfl
  rw [hred, if_pos h]

/-- Witness for C4: a stale generation number (999) on a fresh Closed
breaker commits nothing. -/
theorem cb_afterRequest_stale_discarded_witness :
    afterRequest cbClosedEx 999 true 0 = cbClosedEx :=
  cb_afterRequest_stale_discarded cbClosedEx 999 true 0 (by decide)

/-- Counterexample to claim C5: the default trip predicate is
`consecutiveFailures > 5`, not `≥ 5` — at exactly five consecutive
failures it does not trip, and a Closed breaker whose fifth
consecutive failure is recorded by `onFailure` stays Closed. -/
theorem cb_default_trip_at_five_fails :
    defaultReadyToTrip { countsZero with consecutiveFailures := 5 } = false ∧
    (onFailure cbFourFailures .closed 0).counts.consecutiveFailures = 5 ∧
    (onFailure cbFourFailures .closed 0).state = .closed := by
  refine ⟨by decide, by decide, by decide⟩

/-- Claim C5 (corrected): with the default `readyToTrip` predicate a
failure trips a Closed breaker to Open exactly when the updated
consecutive-failure count exceeds 5 (that is, is at least 6); at 5 or
fewer the breaker stays Closed. -/
theorem cb_default_trip_iff_gt_five (cb : CircuitBreaker) (now : Nat)
    (hrt : cb.readyToTrip = defaultReadyToTrip) (hs : cb.state = .closed) :
    ((onFailure cb .closed now).state = .opened ↔
      5 < cb.counts.recordFailure.consecutiveFailures) ∧
    (cb.counts.recordFailure.consecutiveFailures ≤ 5 →
      (onFailure cb .closed now).state = .closed) := by
  have hred : onFailure cb .closed now =
      (if cb.readyToTrip cb.counts.recordFailure
       then setState { cb with counts := cb.counts.recordFailure } .opened now
       else { cb with counts := cb.counts.recordFailure }) := rfl
  rw [hred, hrt]
  unfold defaultReadyToTrip
  by_cases hc : 5 < cb.counts.recordFailure.consecutiveFailures
  · rw [if_pos (by simpa using hc), setState_state]
    exact ⟨⟨fun _ => hc, fun _ => rfl⟩, fun hle => absurd hc (not_lt.mpr hle)⟩
  · rw [if_neg (by simpa using hc)]
    have hstate : ({ cb with counts := cb.counts.recordFailure } : CircuitBreaker).state = .closed := hs
    constructor
    · rw [hstate]
      exact ⟨fun hop => absurd hop (by simp), fun hgt => absurd hgt hc⟩
    · intro _; exact hstate

/-- Witness for C5 (corrected): the sixth consecutive failure trips
the concrete breaker, the fifth does not. -/
theorem cb_default_trip_iff_gt_five_witness :
    (onFailure cbFiveFailures .closed 0).state = .opened ∧
    (onFailure cbFourFailures .closed 0).state = .closed :=
  ⟨(cb_default_trip_iff_gt_five cbFiveFailures 0 rfl rfl).1.mpr (by decide),
   (cb_default_trip_iff_gt_five cbFourFailures 0 rfl rfl).2 (by decide)⟩

/-- Counting over a replicated list. -/
theorem countP_replicate {α : Type} (p : α → Bool) (n : Nat) (a : α) :
    (List.replicate n a).countP p = if p a then n else 0 := by
  induction n with
  | zero => simp
  | succ k ih =>
      simp only [List.replicate_succ, List.countP_cons, ih]
      split <;> simp +arith [*]

/-- The weighted scan only ever returns an alive backend. -/
theorem scanWeighted_alive (ws : List Backend) (start : Nat) :
    ∀ (remaining i : Nat) (b : Backend),
      scanWeighted ws start i remaining = some b → b.alive = true := by
  intro remaining
  induction remaining with
  | zero => intro i b h; simp [scanWeighted] at h
  | succ n ih =>
      intro i b h
      unfold scanWeighted at h
      cases hx : ws[(start + i) % ws.length]? with
      | none => rw [hx] at h; cases h
      | some backend =>
          rw [hx] at h
          cases hab : backend.alive with
          | true => simp only [hab, if_true] at h; exact (Option.some.inj h) ▸ hab
          | false => simp only [hab, Bool.false_eq_true, if_false] at h; exact ih (i + 1) b h

/-- The weighted scan yields nothing when every entry is dead. -/
theorem scanWeighted_none_of_dead (ws : List Backend) (start : Nat)
    (hdead : ∀ b ∈ ws, b.alive = false) :
    ∀ (remaining i : Nat), scanWeighted ws start i remaining = none := by
  intro remaining
  induction remaining with
  | zero => intro i; rfl
  | succ n ih =>
      intro i
      unfold scanWeighted
      cases hx : ws[(start + i) % ws.length]? with
      | none => rfl
      | some backend =>
          have hb := hdead backend (List.getElem?_mem hx)
          simp only [hb, Bool.false_eq_true, if_false]
          exact ih (i + 1)

/-- Go `GetNextPeerWeighted` returns only alive backends. -/
theorem gnpw_alive (s : ServerPool) (b : Backend)
    (h : (getNextPeerWeighted s).1 = some b) : b.alive = true := by
  unfold getNextPeerWeighted at h
  by_cases hl : s.weighted.length = 0
  · rw [if_pos hl] at h; cases h
  · rw [if_neg hl] at h
    exact scanWeighted_alive s.weighted _ _ _ b h

/-- Go `GetNextPeerWeighted` returns nil when no weighted entry is
alive. -/
theorem gnpw_none_of_dead (s : ServerPool)
    (hdead : ∀ b ∈ s.weighted, b.alive = false) :
    (getNextPeerWeighted s).1 = none := by
  unfold getNextPeerWeighted
  by_cases hl : s.weighted.length = 0
  · rw [if_pos hl]
  · rw [if_neg hl]
    exact scanWeighted_none_of_dead s.weighted _ hdead _ _

/-- With Redis disabled, a local sticky binding to an alive backend
is honored. -/
theorem sticky_local_hit (s : ServerPool) (sessionID region : String) (now : Nat)
    (p : String × Backend) (hredis : s.useRedis = false)
    (hfind : s.stickySessions.find? (fun q => q.1 == sessionID) = some p)
    (halive : p.2.alive = true) :
    (getBackendForStickySession s sessionID region now).1 = some p.2 := by
  unfold getBackendForStickySession
  simp only [hredis, Bool.false_eq_true, if_false, hfind, halive, if_true]

/-- With Redis disabled, a sticky binding to a dead backend is
re-resolved through the assignment path. -/
theorem sticky_local_dead (s : ServerPool) (sessionID region : String) (now : Nat)
    (p : String × Backend) (hredis : s.useRedis = false)
    (hfind : s.stickySessions.find? (fun q => q.1 == sessionID) = some p)
    (hdead : p.2.alive = false) :
    getBackendForStickySession s sessionID region now = stickyAssign s sessionID region now := by
  unfold getBackendForStickySession
  simp only [hredis, Bool.false_eq_true, if_false, hfind, hdead]

/-- Counterexample to claim C1: `GetNextPeerWeighted` does not
consult the circuit breaker — on a pool whose only backend is alive
with an Open breaker, it returns that backend. -/
theorem selection_ignores_open_breaker :
    (getNextPeerWeighted poolOpenOnly).1 = some backendOpenAlive ∧
    backendOpenAlive.alive = true ∧
    backendCBState backendOpenAlive 0 = .opened :=
  ⟨rfl, rfl, rfl⟩

/-- Claim C1 (corrected): selection filters on liveness only —
`GetNextPeerWeighted` returns only alive backends (nil when no
weighted entry is alive) without consulting the circuit breaker, and
(with Redis disabled) a sticky session is honored exactly when its
stored target backend is currently alive, being re-resolved through
the assignment path otherwise. -/
theorem selection_alive_only_spec :
    (∀ (s : ServerPool) (b : Backend), (getNextPeerWeighted s).1 = some b → b.alive = true) ∧
    (∀ (s : ServerPool), (∀ b ∈ s.weighted, b.alive = false) → (getNextPeerWeighted s).1 = none) ∧
    (∀ (s : ServerPool) (sessionID region : String) (now : Nat) (p : String × Backend),
      s.useRedis = false →
      s.stickySessions.find? (fun q => q.1 == sessionID) = some p →
      (p.2.alive = true → (getBackendForStickySession s sessionID region now).1 = some p.2) ∧
      (p.2.alive = false →
        getBackendForStickySession s sessionID region now = stickyAssign s sessionID region now)) := by
  refine ⟨gnpw_alive, gnpw_none_of_dead, ?_⟩
  intro s sessionID region now p hredis hfind
  exact ⟨sticky_local_hit s sessionID region now p hredis hfind,
    sticky_local_dead s sessionID region now p hredis hfind⟩

/-- Witness for C1 (corrected): the Open-breaker backend returned in
the counterexample is indeed alive, and a sticky binding to an alive
backend is honored on a concrete pool. -/
theorem selection_alive_only_spec_witness :
    backendOpenAlive.alive = true ∧
    (getBackendForStickySession poolSticky "sess1" "default" 0).1 = some backendW :=
  ⟨selection_alive_only_spec.1 poolOpenOnly backendOpenAlive rfl,
   (selection_alive_only_spec.2.2 poolSticky "sess1" "default" 0 ("sess1", backendW) rfl rfl).1 rfl⟩

/-- Counterexample to claim C8: `AddBackend` is not idempotent —
adding the weight-2 backend twice leaves four (not two) replicas of
its id in the weighted index. -/
theorem addBackend_repeat_duplicates :
    ((addBackend (addBackend emptyPool backendDup) backendDup).weighted.countP
        (fun x => x.url == backendDup.url)) = 4 ∧
    backendDup.weight = 2 :=
  ⟨rfl, rfl⟩

/-- Claim C8 (corrected): `AddBackend` appends unconditionally — each
call adds exactly `weight` more replicas of the backend's id to the
weighted index, so a repeated add duplicates the entries instead of
leaving them unchanged. -/
theorem addBackend_weighted_count (s : ServerPool) (b : Backend) :
    ((addBackend s b).weighted.countP (fun x => x.url == b.url)) =
      s.weighted.countP (fun x => x.url == b.url) + b.weight.toNat := by
  unfold addBackend
  split
  · simp [List.countP_append, countP_replicate]
  · simp [List.countP_append, countP_replicate]

/-- The policy-selection wrapper consults `EvaluateRequest` exactly
when the engine is enabled. -/
theorem selectBackendWithPolicy_flag (s : ServerPool) (r : Request) :
    (selectBackendWithPolicy s r).2.2 = s.policyEval.isSome := by
  unfold selectBackendWithPolicy
  cases hpe : s.policyEval with
  | none => rfl
  | some ev =>
      dsimp only
      cases hev : ev r with
      | error e => rfl
      | ok ob => cases ob <;> rfl

/-- The dispatcher's weighted fallback does not change the
consulted-policy flag. -/
theorem lbSelect_flag_eq (s : ServerPool) (r : Request) (nanos now : Nat) :
    (lbSelect s r nanos now).2.2 = (lbStep1 s r nanos now).2.2 := by
  unfold lbSelect
  rcases hs : lbStep1 s r nanos now with ⟨p, s1, c⟩
  cases p <;> rfl

/-- The selection flag of the first stage: false on the sticky
branch, the policy wrapper's flag on the empty-session branch. -/
theorem lbStep1_flag (s : ServerPool) (r : Request) (nanos now : Nat) :
    (lbStep1 s r nanos now).2.2 =
      (if lbSessionId r nanos = "" then (selectBackendWithPolicy s r).2.2 else false) := by
  unfold lbStep1
  by_cases hsid : lbSessionId r nanos = ""
  · rw [if_pos hsid, if_neg (not_not_intro hsid)]
    rcases hsp : selectBackendWithPolicy s r with ⟨p, s1, c⟩
    cases p <;> rfl
  · rw [if_neg hsid, if_pos hsid]

/-- When the first stage yields a backend, the dispatcher returns
it. -/
theorem lbSelect_of_step1_some (s : ServerPool) (r : Request) (nanos now : Nat)
    (b : Backend) (h : (lbStep1 s r nanos now).1 = some b) :
    (lbSelect s r nanos now).1 = some b := by
  unfold lbSelect
  rcases hs : lbStep1 s r nanos now with ⟨p, s1, c⟩
  rw [hs] at h
  cases p with
  | none => cases h
  | some b2 => exact h

/-- On a non-empty session id the first stage is sticky resolution. -/
theorem lbStep1_sticky (s : ServerPool) (r : Request) (nanos now : Nat)
    (hsid : lbSessionId r nanos ≠ "") :
    (lbStep1 s r nanos now).1 =
      (getBackendForStickySession s (lbSessionId r nanos) (getClientRegion r) now).1 := by
  unfold lbStep1
  rw [if_pos hsid]

/-- On an empty session id with an enabled engine whose decision is a
backend, the first stage returns that backend. -/
theorem lbStep1_policy (s : ServerPool) (r : Request) (nanos now : Nat)
    (ev : Request → Except String (Option Backend)) (b : Backend)
    (hsid : lbSessionId r nanos = "") (hpe : s.policyEval = some ev)
    (hev : ev r = .ok (some b)) :
    (lbStep1 s r nanos now).1 = some b := by
  unfold lbStep1
  rw [if_neg (not_not_intro hsid)]
  have hsp : selectBackendWithPolicy s r = (some b, s, true) := by
    unfold selectBackendWithPolicy
    rw [hpe]
    dsimp only
    rw [hev]
  rw [hsp]

/-- Counterexample to claim C7: on a pool with an enabled policy
engine that would pick the selectable backend `backendP`, and a
request with no sticky binding (no cookie, empty sticky map), the
dispatcher returns the weighted pick `backendW` and never consults
the engine — the claimed stage order sticky → policy → adaptive →
weighted does not hold. -/
theorem lb_policy_engine_bypassed :
    (lbSelect poolPolicy reqPlain 5 0).1 = some backendW ∧
    (lbSelect poolPolicy reqPlain 5 0).2.2 = false ∧
    poolPolicy.policyEval.map (fun ev => ev reqPlain) = some (.ok (some backendP)) ∧
    poolPolicy.stickySessions = [] ∧
    backendP.alive = true ∧
    ¬ backendW.url = backendP.url :=
  ⟨rfl, rfl, rfl, rfl, rfl, by decide⟩

/-- Claim C7 (corrected): the dispatcher consults the policy engine
exactly when the session id is empty (an empty-valued session cookie)
and the engine is enabled; a request with a non-empty session id
resolves via sticky resolution (honoring an alive local binding, with
Redis disabled); on an empty session id the enabled engine's backend
decision wins; and the handler replies 503 exactly when selection
yields no backend. -/
theorem lb_selection_order_spec :
    (∀ (s : ServerPool) (r : Request) (nanos now : Nat),
      (lbSelect s r nanos now).2.2 = true ↔
        lbSessionId r nanos = "" ∧ s.policyEval.isSome = true) ∧
    (∀ (s : ServerPool) (r : Request) (nanos now : Nat) (p : String × Backend),
      lbSessionId r nanos ≠ "" → s.useRedis = false →
      s.stickySessions.find? (fun q => q.1 == lbSessionId r nanos) = some p →
      p.2.alive = true →
      (lbSelect s r nanos now).1 = some p.2) ∧
    (∀ (s : ServerPool) (r : Request) (nanos now : Nat)
      (ev : Request → Except String (Option Backend)) (b : Backend),
      lbSessionId r nanos = "" → s.policyEval = some ev → ev r = .ok (some b) →
      (lbSelect s r nanos now).1 = some b) ∧
    (∀ (s : ServerPool) (r : Request) (nanos now : Nat),
      lbReplies503 s r nanos now = true ↔ (lbSelect s r nanos now).1 = none) := by
  refine ⟨?_, ?_, ?_, ?_⟩
  · intro s r nanos now
    rw [lbSelect_flag_eq, lbStep1_flag, selectBackendWithPolicy_flag]
    by_cases hsid : lbSessionId r nanos = "" <;> simp [hsid]
  · intro s r nanos now p hsid hredis hfind halive
    refine lbSelect_of_step1_some s r nanos now p.2 ?_
    rw [lbStep1_sticky s r nanos now hsid]
    exact sticky_local_hit s (lbSessionId r nanos) (getClientRegion r) now p hredis hfind halive
  · intro s r nanos now ev b hsid hpe hev
    exact lbSelect_of_step1_some s r nanos now b (lbStep1_policy s r nanos now ev b hsid hpe hev)
  · intro s r nanos now
    cases h : (lbSelect s r nanos now).1 <;> simp [lbReplies503, h]

/-- Witness for C7 (corrected): the sticky request `sess1` resolves
to its bound backend, and the empty-valued-cookie request is decided
by the policy engine (flag set, engine backend returned). -/
theorem lb_selection_order_spec_witness :
    (lbSelect poolSticky reqSess1 7 0).1 = some backendW ∧
    (lbSelect poolPolicy reqEmptyCookie 7 0).1 = some backendP ∧
    (lbSelect poolPolicy reqEmptyCookie 7 0).2.2 = true :=
  ⟨lb_selection_order_spec.2.1 poolSticky reqSess1 7 0 ("sess1", backendW)
      (by decide) rfl rfl rfl,
   lb_selection_order_spec.2.2.1 poolPolicy reqEmptyCookie 7 0
      (fun _ => .ok (some backendP)) backendP rfl rfl rfl,
   (lb_selection_order_spec.1 poolPolicy reqEmptyCookie 7 0).mpr ⟨rfl, rfl⟩⟩

/-- Looking up the key just stored by the bucket-map assignment. -/
theorem find?_putBucket (bs : List (String × TokenBucket)) (key : String) (b : TokenBucket) :
    (putBucket bs key b).find? (fun q => q.1 == key) = some (key, b) := by
  simp [putBucket, List.find?]

/-- The Go cap `if tokens > capacity { tokens = capacity }` is the
minimum. -/
theorem ite_lt_min (a b : ℚ) : (if a < b then a else b) = min a b := by
  rcases lt_or_le a b with h | h
  · rw [if_pos h, min_eq_left h.le]
  · rw [if_neg (not_lt.mpr h), min_eq_right h]

/-- Claim C6: `Allow` implements the warmed-up token bucket — a new
bucket is created with `warmup = 3·C` (so its first call admits,
leaving `warmup = 3·C − 1` free admissions); while warmup remains the
call admits and decrements warmup without touching tokens; past
warmup the bucket is refilled to `min(C, tokens + Δt·R)` and the call
admits and deducts one token iff the refilled level is at least 1. -/
theorem rlAllow_token_bucket_spec :
    (∀ (capacity refill : Int), (newRateLimiter capacity refill).warmup = 3 * capacity) ∧
    (∀ (rl : RateLimiter) (key : String) (now : ℚ) (p : String × TokenBucket),
      rl.buckets.find? (fun q => q.1 == key) = some p → 0 < p.2.warmup →
      (rlAllow rl key now).1 = true ∧
      ((rlAllow rl key now).2.buckets.find? (fun q => q.1 == key)) =
        some (key, { p.2 with warmup := p.2.warmup - 1, last := now })) ∧
    (∀ (rl : RateLimiter) (key : String) (now : ℚ),
      rl.buckets.find? (fun q => q.1 == key) = none → 0 < rl.warmup →
      (rlAllow rl key now).1 = true ∧
      ((rlAllow rl key now).2.buckets.find? (fun q => q.1 == key)) =
        some (key, { tokens := rl.capacity, last := now, warmup := rl.warmup - 1 })) ∧
    (∀ (rl : RateLimiter) (key : String) (now : ℚ) (p : String × TokenBucket),
      rl.buckets.find? (fun q => q.1 == key) = some p → p.2.warmup ≤ 0 →
      p.2.tokens ≤ rl.capacity → p.2.last ≤ now →
      ((rlAllow rl key now).1 =
        decide (1 ≤ min rl.capacity (p.2.tokens + (now - p.2.last) * rl.refillRate))) ∧
      ((rlAllow rl key now).2.buckets.find? (fun q => q.1 == key)) =
        some (key, { p.2 with
          tokens :=
            (if 1 ≤ min rl.capacity (p.2.tokens + (now - p.2.last) * rl.refillRate) then
              min rl.capacity (p.2.tokens + (now - p.2.last) * rl.refillRate) - 1
            else min rl.capacity (p.2.tokens + (now - p.2.last) * rl.refillRate))
          last := now })) := by
  refine ⟨?_, ?_, ?_, ?_⟩
  · intro capacity refill
    simp [newRateLimiter, Int.mul_comm]
  · intro rl key now p hfind hwarm
    unfold rlAllow
    rw [hfind]
    dsimp only [Option.map_some']
    rw [if_pos hwarm]
    exact ⟨rfl, find?_putBucket rl.buckets key _⟩
  · intro rl key now hfind hwarm
    unfold rlAllow
    rw [hfind]
    dsimp only [Option.map_none']
    rw [if_pos hwarm]
    exact ⟨rfl, find?_putBucket rl.buckets key _⟩
  · intro rl key now p hfind hwarm htok hlast
    unfold rlAllow
    rw [hfind]
    dsimp only [Option.map_some']
    rw [if_neg (not_lt.mpr hwarm)]
    by_cases he : (0 : ℚ) < now - p.2.last
    · rw [if_pos he, ite_lt_min]
      constructor
      · rfl
      · rw [find?_putBucket]
        dsimp only
        by_cases ha : (1 : ℚ) ≤ min rl.capacity (p.2.tokens + (now - p.2.last) * rl.refillRate)
        · rw [if_pos ha, if_pos ha]
        · rw [if_neg ha, if_neg ha]
    · rw [if_neg he]
      have h0 : now - p.2.last = 0 := le_antisymm (not_lt.mp he) (by linarith)
      have hnow : now = p.2.last := by linarith
      have hmin : min rl.capacity (p.2.tokens + (now - p.2.last) * rl.refillRate) = p.2.tokens := by
        rw [h0, zero_mul, add_zero, min_eq_right htok]
      rw [hmin]
      constructor
      · rfl
      · rw [find?_putBucket, hnow]
        by_cases ha : (1 : ℚ) ≤ p.2.tokens
        · rw [if_pos ha, if_pos ha]
        · rw [if_neg ha, if_neg ha]

/-- Witness for C6: the configured limiter has `warmup = 30 = 3·10`;
a warmup bucket admits; and the post-warmup bucket with one token is
admitted by the refill rule. -/
theorem rlAllow_token_bucket_spec_witness :
    (newRateLimiter 10 5).warmup = 3 * 10 ∧
    (rlAllow rlWarm "k" 1).1 = true ∧
    (rlAllow rlEx "1.2.3.4" 0).1 =
      decide ((1 : ℚ) ≤ min rlEx.capacity
        ((1 : ℚ) + ((0 : ℚ) - (0 : ℚ)) * rlEx.refillRate)) :=
  ⟨rlAllow_token_bucket_spec.1 10 5,
   (rlAllow_token_bucket_spec.2.1 rlWarm "k" 1
      ("k", { tokens := 10, last := 0, warmup := 30 }) rfl (by decide)).1,
   (rlAllow_token_bucket_spec.2.2.2 rlEx "1.2.3.4" 0
      ("1.2.3.4", { tokens := 1, last := 0, warmup := 0 }) rfl (by decide)
      (by decide) (by decide)).1⟩

/-- Claim C9: the session JSON codec of the adapter round-trips — for
every `SessionData`, marshalling and unmarshalling restores all four
tagged fields (`backend_url`, `region`, `created_at`,
`last_access`). -/
theorem session_json_roundtrip (s : SessionData) :
    unmarshalSessionData (marshalSessionData s) = s :=
  rfl

/-- Claim C10: a session id with no stored mapping is a miss, not an
error — the mock client returns the zero value with a nil error, and
`GetSession` maps that to a nil session with a nil error (`ok none`),
leaving the store untouched. -/
theorem getSession_miss_is_absence (data : RedisData) (pref sessionID : String) (now : Nat)
    (h : data.find? (fun p => p.1 == sessionKey pref sessionID) = none) :
    mockRedisGet data (sessionKey pref sessionID) = (none, none) ∧
    getSession data pref sessionID now = (.ok none, data) := by
  constructor
  · unfold mockRedisGet
    rw [h]
    rfl
  · unfold getSession mockRedisGet
    dsimp only
    rw [h]
    rfl

/-- Witness for C10: the empty store misses every session id. -/
theorem getSession_miss_is_absence_witness :
    mockRedisGet [] (sessionKey "loadbalancer" "abc") = (none, none) ∧
    getSession [] "loadbalancer" "abc" 0 = (.ok none, []) :=
  getSession_miss_is_absence [] "loadbalancer" "abc" 0 rfl

end LB
